import Mathlib

/-!
Verification of the asynchronous transaction scheduler core of the MCP2515
SPI CAN controller driver (`drivers/net/can/spi/mcp2515.c`).

The driver's pure decision logic (completion handlers, wake handlers, the
transmit-slot scan loops, the receive-buffer decoder and transmit-buffer
encoder) is embedded as executable Lean functions over `Nat` (machine `u8`
values are `Nat` with explicit `&&& 255` truncation where the C code stores
into a `u8`).  The concurrent behaviour (three wake sources plus the SPI
completion callback, serialized by `priv->lock`) is embedded as a labelled
step function on an explicit session state; each lock-protected critical
section together with the at-most-one `spi_async` submission it performs is
one atomic step, which is sound because the `busy` flag is held across every
completion handler until it either submits the follow-up exchange or drops
`busy`.
-/

set_option maxRecDepth 100000

/- ### Register / bit constants (from the #define block of mcp2515.c) -/

/-- BIT(n) from the kernel headers. -/
def BIT (n : Nat) : Nat := 1 <<< n

def MCP2515_TX_CNT : Nat := 3

/-- `#define TX_MAP_BUSY (1 << MCP2515_TX_CNT) - 1`, i.e. 7. -/
def TX_MAP_BUSY : Nat := (1 <<< MCP2515_TX_CNT) - 1

/-- CANINTF bits. -/
def CANINTF_RX0IF : Nat := BIT 0
def CANINTF_RX1IF : Nat := BIT 1
def CANINTF_TX0IF : Nat := BIT 2
def CANINTF_TX1IF : Nat := BIT 3
def CANINTF_TX2IF : Nat := BIT 4

/-- EFLG bits (receive-buffer overrun). -/
def EFLG_RX0OVR : Nat := BIT 6
def EFLG_RX1OVR : Nat := BIT 7

/-- RXBnSIDL bits. -/
def RXBSIDL_IDE : Nat := BIT 3
def RXBSIDL_SRR : Nat := BIT 4

/-- RXBnDLC bits. -/
def RXBDLC_RTR : Nat := BIT 6

/-- CAN_EFF_FLAG from linux/can.h: extended-frame-format flag in `can_id`. -/
def CAN_EFF_FLAG : Nat := 0x80000000

/-- CAN_RTR_FLAG from linux/can.h: remote-transmission-request flag in `can_id`. -/
def CAN_RTR_FLAG : Nat := 0x40000000

/-- The next SPI exchange (or idle transition) chosen by a completion handler;
this names the `mcp2515_*` function the handler calls to submit it. -/
inductive NextOp where
  | readFlags
  | readRxb0
  | readRxb1
  | clearCanintf
  | clearEflg
  | loadTxb (n : Nat)
  | rtsTxb
  | idleArmTimer
deriving DecidableEq

/- ### The slot-scan loops -/

/-- The `for (i = 0; i < MCP2515_TX_CNT; i++) { if (p(i)) break; }` loop shape
used by `mcp2515_start_xmit` (first free slot), `mcp2515_read_flags_complete`
and `mcp2515_transmit_or_read_flags` (first pending slot).  `fuel` is the
number of remaining iterations; the result is the loop variable after the
loop, which is the first `i` with `p i` or `MCP2515_TX_CNT` when the loop ran
to the end without a break. -/
def scanSlots (p : Nat → Bool) : Nat → Nat → Nat
  | 0, i => i
  | fuel + 1, i => if p i then i else scanSlots p fuel (i + 1)

/- ### mcp2515_clear_eflg_complete (lines 747-762) -/

/-- Embedding of `mcp2515_clear_eflg_complete`: bump `rx_over_errors` when
either overrun bit of the EFLG snapshot is set, then issue `mcp2515_read_flags`. -/
def mcp2515_clear_eflg_complete (eflg rx_over_errors : Nat) : Nat × NextOp :=
  (if eflg &&& (EFLG_RX0OVR ||| EFLG_RX1OVR) ≠ 0 then rx_over_errors + 1
   else rx_over_errors,
   NextOp.readFlags)

/- ### read_flags_timer_cb (lines 819-838) -/

/-- Result of one run of the fallback-timer callback. -/
structure TimerCbResult where
  busy : Bool
  skip : Nat
  extra : Bool
  read_flags_issued : Bool
deriving DecidableEq

/-- Embedding of `read_flags_timer_cb`: if busy, only `priv->skip++` (plus a
debug log above a threshold); else take `busy`, reset `skip`, set the `extra`
diagnostic marker and issue `mcp2515_read_flags`. -/
def read_flags_timer_cb (busy : Bool) (skip : Nat) (extra : Bool) : TimerCbResult :=
  if busy then
    { busy := busy, skip := skip + 1, extra := extra, read_flags_issued := false }
  else
    { busy := true, skip := 0, extra := true, read_flags_issued := true }

/- ### mcp2515_softirq_handler (lines 800-814) -/

/-- Result of one run of the interrupt bottom half. -/
structure SoftirqResult where
  busy : Bool
  interrupt : Bool
  read_flags_issued : Bool
deriving DecidableEq

/-- Embedding of `mcp2515_softirq_handler`: under the lock, if busy record the
deferred interrupt and return, else take `busy` and issue `mcp2515_read_flags`. -/
def mcp2515_softirq_handler (busy interrupt : Bool) : SoftirqResult :=
  if busy then
    { busy := busy, interrupt := true, read_flags_issued := false }
  else
    { busy := true, interrupt := interrupt, read_flags_issued := true }

/- ### The receive-buffer decoder (mcp2515_read_rxb_complete, lines 610-645) -/

/-- `struct can_frame` as used by this driver: `can_id` is the `u32` with the
EFF/RTR flags embedded, `can_dlc` the data length, `data` the payload bytes.
For decoded frames `data` records exactly the bytes the handler `memcpy`s into
the (zero-initialised) skb: `can_dlc` bytes for a data frame, none for a
remote frame. -/
structure CanFrame where
  can_id : Nat
  can_dlc : Nat
  data : List Nat
deriving DecidableEq

/-- `get_can_dlc` from the kernel CAN helpers (include/linux/can/dev.h, not in
this repository's sources).  Modelled from the spec: "extract data length,
clamped to a maximum of 8". -/
def get_can_dlc (dlc : Nat) : Nat := min dlc 8

/-- Embedding of the frame-decoding part of `mcp2515_read_rxb_complete`.
`buf` is `priv->transfer.rx_buf`: byte 0 echoes the instruction, bytes 1..4
are RXBnSIDH..RXBnEID0, byte 5 is RXBnDLC, bytes 6.. the payload.  Out-of-range
reads yield 0 (the transfer buffer was zeroed by `mcp2515_read_rxb`). -/
def mcp2515_read_rxb_decode (buf : List Nat) : CanFrame :=
  let b : Nat → Nat := fun i => buf.getD i 0
  let canId :=
    if b 2 &&& RXBSIDL_IDE ≠ 0 then
      let base := (b 1) <<< 21 ||| ((b 2 &&& 0xe0) <<< 13) |||
        ((b 2 &&& 3) <<< 16) ||| ((b 3) <<< 8) ||| (b 4) ||| CAN_EFF_FLAG
      if b 5 &&& RXBDLC_RTR ≠ 0 then base ||| CAN_RTR_FLAG else base
    else
      let base := (b 1) <<< 3 ||| (b 2) >>> 5
      if b 2 &&& RXBSIDL_SRR ≠ 0 then base ||| CAN_RTR_FLAG else base
  let dlc := get_can_dlc (b 5 &&& 0xf)
  let payload :=
    if canId &&& CAN_RTR_FLAG ≠ 0 then ([] : List Nat)
    else (List.range dlc).map fun i => b (i + 6)
  { can_id := canId, can_dlc := dlc, data := payload }

/- ### The transmit-buffer encoder (mcp2515_set_txbuf, lines 493-517) -/

/-- Embedding of `mcp2515_set_txbuf`: the bytes written at TXBnSIDH onward
(`buf+1` of the SPI message).  Each byte store carries the C `u8` truncation
`&&& 255`; `memcpy(buf + 5, frame->data, frame->can_dlc)` appends the first
`can_dlc` payload bytes.  The returned list has length `5 + can_dlc`, the
value `mcp2515_set_txbuf` returns. -/
def mcp2515_set_txbuf (f : CanFrame) : List Nat :=
  let idBytes :=
    if f.can_id &&& CAN_EFF_FLAG ≠ 0 then
      [(f.can_id >>> 21) &&& 255,
       (((f.can_id >>> 13) &&& 0xe0) ||| 8 ||| ((f.can_id >>> 16) &&& 3)) &&& 255,
       (f.can_id >>> 8) &&& 255,
       f.can_id &&& 255]
    else
      [(f.can_id >>> 3) &&& 255,
       (f.can_id <<< 5) &&& 255,
       0, 0]
  let dlcByte :=
    (f.can_dlc ||| (if f.can_id &&& CAN_RTR_FLAG ≠ 0 then 0x40 else 0)) &&& 255
  idBytes ++ [dlcByte] ++ f.data.take f.can_dlc

/-- A well-formed CAN frame as handed to `mcp2515_start_xmit` after
`can_dropped_invalid_skb`: a standard 11-bit or extended 29-bit identifier
(no error flag), a length of at most 8, and exactly `can_dlc` payload bytes,
each a `u8`. -/
def validFrame (f : CanFrame) : Prop :=
  f.can_id < 2 ^ 32 ∧
  f.can_id.testBit 29 = false ∧
  (f.can_id.testBit 31 = false → f.can_id % 2 ^ 29 < 2 ^ 11) ∧
  f.can_dlc ≤ 8 ∧
  f.data.length = f.can_dlc ∧
  ∀ x ∈ f.data, x < 256

instance (f : CanFrame) : Decidable (validFrame f) := by
  unfold validFrame
  infer_instance

/- ### mcp2515_read_flags_complete (lines 557-605) -/

/-- The session fields `mcp2515_read_flags_complete` reads or writes, plus the
next operation it submits. -/
structure RfcResult where
  canintf : Nat
  eflg : Nat
  extra : Bool
  tx_pending_map : Nat
  interrupt : Bool
  busy : Bool
  op : NextOp
deriving DecidableEq

/-- Embedding of `mcp2515_read_flags_complete`.  `buf2`/`buf3` are the two
response bytes (CANINTF, EFLG) of the completed status read; they are stored
into `priv->canintf`/`priv->eflg` (u8).  The `extra` diagnostic marker is
always cleared (the `if (priv->extra)` block only clears it and emits a debug
log).  The priority chain then follows the source: RX0IF, RX1IF, any other
CANINTF bit, pending transmit slot (the for-loop clears the first pending bit
at its `break`; `255 ^^^ BIT k` is the u8 `~BIT(k)`; the loop variable is
`MCP2515_TX_CNT` when no bit below `MCP2515_TX_CNT` is set, and then no bit is
cleared), deferred interrupt, and finally the idle transition that drops
`busy` and re-arms the fallback timer. -/
def mcp2515_read_flags_complete (buf2 buf3 : Nat) (extra : Bool)
    (tx_pending_map : Nat) (interrupt busy : Bool) : RfcResult :=
  let canintf := buf2 &&& 255
  let eflg := buf3 &&& 255
  let extra2 := false
  if canintf &&& CANINTF_RX0IF ≠ 0 then
    ⟨canintf, eflg, extra2, tx_pending_map, interrupt, busy, NextOp.readRxb0⟩
  else if canintf &&& CANINTF_RX1IF ≠ 0 then
    ⟨canintf, eflg, extra2, tx_pending_map, interrupt, busy, NextOp.readRxb1⟩
  else if canintf ≠ 0 then
    ⟨canintf, eflg, extra2, tx_pending_map, interrupt, busy, NextOp.clearCanintf⟩
  else if tx_pending_map ≠ 0 then
    let k := scanSlots (fun i => tx_pending_map &&& BIT i != 0) MCP2515_TX_CNT 0
    let pend2 :=
      if k < MCP2515_TX_CNT then tx_pending_map &&& (255 ^^^ BIT k) else tx_pending_map
    ⟨canintf, eflg, extra2, pend2, interrupt, busy, NextOp.loadTxb k⟩
  else if interrupt then
    ⟨canintf, eflg, extra2, tx_pending_map, false, busy, NextOp.readFlags⟩
  else
    ⟨canintf, eflg, extra2, tx_pending_map, interrupt, false, NextOp.idleArmTimer⟩

/- ### mcp2515_start_xmit (lines 843-877) -/

/-- Observable outcome of one call to `mcp2515_start_xmit` (after the
`can_dropped_invalid_skb` guard).  `tx_idx` is the loop variable after the
free-slot scan: it is both the index at which `priv->skb[tx_idx] = skb`
stores the frame pointer and the buffer number passed to `mcp2515_load_txb`
or recorded in `tx_pending_map`.  `stop_queue_called` / `load_txb_issued`
record the calls to the external `netif_stop_queue` / `mcp2515_load_txb`;
the function returns `NETDEV_TX_OK` on every path (`ret_tx_ok`). -/
structure XmitResult where
  tx_idx : Nat
  tx_busy_map : Nat
  tx_pending_map : Nat
  busy : Bool
  netif_queue_stopped : Bool
  stop_queue_called : Bool
  load_txb_issued : Bool
  ret_tx_ok : Bool
deriving DecidableEq

/-- Embedding of `mcp2515_start_xmit`.  The for-loop scans for the first free
slot and sets its busy bit at the `break`; when all of bits 0..2 are set the
loop terminates with `tx_idx = MCP2515_TX_CNT` and no bit is set.  Then the
queue is stopped when the updated map reaches `TX_MAP_BUSY`, the skb is
stored at `tx_idx`, and either the slot is marked pending (scheduler busy) or
`busy` is taken and `mcp2515_load_txb` is invoked directly. -/
def mcp2515_start_xmit (tx_busy_map tx_pending_map : Nat)
    (busy netif_queue_stopped : Bool) : XmitResult :=
  let tx_idx := scanSlots (fun i => tx_busy_map &&& BIT i == 0) MCP2515_TX_CNT 0
  let m := if tx_idx < MCP2515_TX_CNT then tx_busy_map ||| BIT tx_idx else tx_busy_map
  let stopCalled := decide (m ≥ TX_MAP_BUSY)
  let stopped := if m ≥ TX_MAP_BUSY then true else netif_queue_stopped
  if busy then
    { tx_idx := tx_idx, tx_busy_map := m,
      tx_pending_map := tx_pending_map ||| BIT tx_idx,
      busy := busy, netif_queue_stopped := stopped, stop_queue_called := stopCalled,
      load_txb_issued := false, ret_tx_ok := true }
  else
    { tx_idx := tx_idx, tx_busy_map := m, tx_pending_map := tx_pending_map,
      busy := true, netif_queue_stopped := stopped, stop_queue_called := stopCalled,
      load_txb_issued := true, ret_tx_ok := true }

/- ### mcp2515_clear_canintf_complete (lines 713-742) -/

/-- The completion accounting of `mcp2515_clear_canintf_complete` (lines
718-732): for each TXnIF bit of the CANINTF snapshot, release the slot's skb
(stats and `can_get_echo_skb` are external effects) and clear its busy bit;
`255 ^^^ BIT n` is the u8 `~BIT(n)`. -/
def mcp2515_tx_complete_accounting (canintf tx_busy_map : Nat) : Nat :=
  let m0 :=
    if canintf &&& CANINTF_TX0IF ≠ 0 then tx_busy_map &&& (255 ^^^ BIT 0) else tx_busy_map
  let m1 := if canintf &&& CANINTF_TX1IF ≠ 0 then m0 &&& (255 ^^^ BIT 1) else m0
  if canintf &&& CANINTF_TX2IF ≠ 0 then m1 &&& (255 ^^^ BIT 2) else m1

/-- Observable outcome of `mcp2515_clear_canintf_complete`:
`wake_queue_called` records the call to the external `netif_wake_queue`. -/
structure ClearIntfResult where
  tx_busy_map : Nat
  netif_queue_stopped : Bool
  wake_queue_called : Bool
  op : NextOp
deriving DecidableEq

/-- Embedding of `mcp2515_clear_canintf_complete`: run the completion
accounting, wake the host queue when it was stopped and the busy map dropped
below `TX_MAP_BUSY`, then issue clear-EFLG when the EFLG snapshot is non-zero,
else a status read. -/
def mcp2515_clear_canintf_complete (canintf eflg tx_busy_map : Nat)
    (netif_queue_stopped : Bool) : ClearIntfResult :=
  let m2 := mcp2515_tx_complete_accounting canintf tx_busy_map
  let wake := netif_queue_stopped && decide (m2 < TX_MAP_BUSY)
  { tx_busy_map := m2,
    netif_queue_stopped := if wake then false else netif_queue_stopped,
    wake_queue_called := wake,
    op := if eflg ≠ 0 then NextOp.clearEflg else NextOp.readFlags }

/- ### Spec-side notions for the transmit ring -/

/-- The spec's "lowest-indexed Pending slot": the least slot index whose
pending bit is set (written from the spec's words, to be compared with the
driver's scan loop). -/
def spec_lowest_pending_slot (m : Nat) : Nat :=
  if m.testBit 0 then 0 else if m.testBit 1 then 1 else 2

/-- The spec's "count of busy (non-Free) transmit slots" (written from the
spec's words, to be compared with the driver's bitmap tests). -/
def spec_busy_slot_count (m : Nat) : Nat :=
  (List.range MCP2515_TX_CNT).countP fun i => m.testBit i

/- ### The concurrent session model -/

/-- The tag of an asynchronous SPI exchange in flight, named after the
completion callback the driver attaches to it via `priv->message.complete`. -/
inductive Xfer where
  | readFlags
  | readRxb0
  | readRxb1
  | clearCanintf
  | clearEflg
  | loadTxb
  | rtsTxb
deriving DecidableEq

/-- The session state of `struct mcp2515_priv` relevant to the scheduler,
plus the multiset of in-flight asynchronous exchanges (`inflight`; the driver
intends it to hold at most one element — that is the property under proof,
so the model lets submissions append freely) and two ghost counters:
`extraReads` counts status reads issued by the deferred-interrupt branch of
`mcp2515_read_flags_complete`, and `irqWhileBusy` counts softirq wakes that
found the scheduler busy. -/
structure Sys where
  busy : Bool
  interrupt : Bool
  extra : Bool
  skip : Nat
  canintf : Nat
  eflg : Nat
  tx_busy_map : Nat
  tx_pending_map : Nat
  loaded_txb : Nat
  netif_queue_stopped : Bool
  rx_over_errors : Nat
  inflight : List Xfer
  extraReads : Nat
  irqWhileBusy : Nat
deriving DecidableEq

/-- Session state right after `mcp2515_open`: idle, no flags, empty ring. -/
def initSys : Sys where
  busy := false
  interrupt := false
  extra := false
  skip := 0
  canintf := 0
  eflg := 0
  tx_busy_map := 0
  tx_pending_map := 0
  loaded_txb := 0
  netif_queue_stopped := false
  rx_over_errors := 0
  inflight := []
  extraReads := 0
  irqWhileBusy := 0

/-- Embedding of `mcp2515_transmit_or_read_flags` (lines 650-670): dequeue the
first pending slot and load it, else issue a status read. -/
def mcp2515_transmit_or_read_flags (s : Sys) : Sys :=
  if s.tx_pending_map ≠ 0 then
    let k := scanSlots (fun i => s.tx_pending_map &&& BIT i != 0) MCP2515_TX_CNT 0
    let pend2 :=
      if k < MCP2515_TX_CNT then s.tx_pending_map &&& (255 ^^^ BIT k) else s.tx_pending_map
    { s with
        tx_pending_map := pend2
        loaded_txb := k
        inflight := s.inflight ++ [Xfer.loadTxb] }
  else
    { s with inflight := s.inflight ++ [Xfer.readFlags] }

/-- One completion callback, dispatched on the tag of the exchange that just
completed (the caller has already removed it from `inflight`).  `b2`/`b3` are
the response bytes consumed by `mcp2515_read_flags_complete`; the other
handlers' payloads only feed the frame decoder and statistics, which do not
influence scheduling. -/
def stepComplete (s : Sys) (x : Xfer) (b2 b3 : Nat) : Sys :=
  match x with
  | Xfer.readFlags =>
    let r := mcp2515_read_flags_complete b2 b3 s.extra s.tx_pending_map s.interrupt s.busy
    let s2 := { s with
      canintf := r.canintf
      eflg := r.eflg
      extra := r.extra
      tx_pending_map := r.tx_pending_map
      interrupt := r.interrupt
      busy := r.busy }
    match r.op with
    | NextOp.readRxb0 => { s2 with inflight := s2.inflight ++ [Xfer.readRxb0] }
    | NextOp.readRxb1 => { s2 with inflight := s2.inflight ++ [Xfer.readRxb1] }
    | NextOp.clearCanintf => { s2 with inflight := s2.inflight ++ [Xfer.clearCanintf] }
    | NextOp.loadTxb k =>
      { s2 with
        loaded_txb := k
        inflight := s2.inflight ++ [Xfer.loadTxb] }
    | NextOp.readFlags =>
      { s2 with
        extraReads := s2.extraReads + 1
        inflight := s2.inflight ++ [Xfer.readFlags] }
    | _ => s2
  | Xfer.readRxb0 =>
    if s.canintf &&& CANINTF_RX1IF ≠ 0 then { s with inflight := s.inflight ++ [Xfer.readRxb1] }
    else mcp2515_transmit_or_read_flags s
  | Xfer.readRxb1 => mcp2515_transmit_or_read_flags s
  | Xfer.clearCanintf =>
    let r := mcp2515_clear_canintf_complete s.canintf s.eflg s.tx_busy_map s.netif_queue_stopped
    let s2 := { s with
      tx_busy_map := r.tx_busy_map
      netif_queue_stopped := r.netif_queue_stopped }
    match r.op with
    | NextOp.clearEflg => { s2 with inflight := s2.inflight ++ [Xfer.clearEflg] }
    | _ => { s2 with inflight := s2.inflight ++ [Xfer.readFlags] }
  | Xfer.clearEflg =>
    let r := mcp2515_clear_eflg_complete s.eflg s.rx_over_errors
    { s with
      rx_over_errors := r.1
      inflight := s.inflight ++ [Xfer.readFlags] }
  | Xfer.loadTxb => { s with inflight := s.inflight ++ [Xfer.rtsTxb] }
  | Xfer.rtsTxb => { s with inflight := s.inflight ++ [Xfer.readFlags] }

/-- A wake or completion event.  `irq` is the interrupt bottom half, `timer`
the fallback timer callback, `xmit` a host transmit of a valid frame, and
`complete b2 b3` the SPI completion callback of the oldest in-flight exchange
with response bytes `b2`, `b3`. -/
inductive Ev where
  | irq
  | timer
  | xmit
  | complete (b2 b3 : Nat)
deriving DecidableEq

/-- One atomic step of the session.  Each case is one lock-protected critical
section of the corresponding driver entry point together with the at-most-one
`spi_async` submission it performs; this is sound because every completion
handler keeps `busy` set until it either submits its follow-up exchange or
drops `busy`, so no wake source can submit concurrently with it.  `complete`
is enabled only when an exchange is in flight. -/
def mcp2515_step (s : Sys) : Ev → Option Sys
  | Ev.irq =>
    if s.busy then some { s with interrupt := true, irqWhileBusy := s.irqWhileBusy + 1 }
    else some { s with busy := true, inflight := s.inflight ++ [Xfer.readFlags] }
  | Ev.timer =>
    if s.busy then some { s with skip := s.skip + 1 }
    else
      some { s with
        busy := true
        skip := 0
        extra := true
        inflight := s.inflight ++ [Xfer.readFlags] }
  | Ev.xmit =>
    let r := mcp2515_start_xmit s.tx_busy_map s.tx_pending_map s.busy s.netif_queue_stopped
    some { s with
      tx_busy_map := r.tx_busy_map
      tx_pending_map := r.tx_pending_map
      busy := r.busy
      netif_queue_stopped := r.netif_queue_stopped
      loaded_txb := if r.load_txb_issued then r.tx_idx else s.loaded_txb
      inflight := s.inflight ++ (if r.load_txb_issued then [Xfer.loadTxb] else []) }
  | Ev.complete b2 b3 =>
    match s.inflight with
    | [] => none
    | x :: rest => some (stepComplete { s with inflight := rest } x b2 b3)

/-- Run a sequence of events from a state; `none` when an event was not
enabled. -/
def mcp2515_run : Sys → List Ev → Option Sys
  | s, [] => some s
  | s, e :: evs =>
    match mcp2515_step s e with
    | none => none
    | some s2 => mcp2515_run s2 evs

/- ### Byte-level helper lemmas -/

/-- Masking with a `u8` mask only depends on the low byte of the operand. -/
theorem land_low_byte (x m : Nat) (hm : m < 256) : x &&& m = (x % 256) &&& m := by
  have h255 : x % 256 = x &&& 255 := (Nat.and_pow_two_sub_one_eq_mod x 8).symm
  rw [h255, Nat.and_assoc]
  have hmm : 255 &&& m = m := by
    rw [Nat.and_comm]
    calc m &&& 255 = m % 256 := Nat.and_pow_two_sub_one_eq_mod m 8
      _ = m := Nat.mod_eq_of_lt hm
  rw [hmm]

/-- A bit below 8 of a value equals the same bit of its low byte. -/
theorem testBit_low_byte (x i : Nat) (hi : i < 8) : (x % 256).testBit i = x.testBit i := by
  have h := Nat.testBit_mod_two_pow x 8 i
  simpa [hi] using h

/- ### Theorems -/

/-- C9: for every received raw buffer, the decoded frame length is the low 4
bits of the DLC byte clamped to a maximum of 8 (in particular never above 8),
and payload bytes are copied into the frame only when the decoded
remote-request flag is clear (for a remote frame nothing is copied and the
skb data stays all-zero). -/
theorem mcp2515_rxb_dlc_clamp_and_rtr_copy (buf : List Nat) :
    (mcp2515_read_rxb_decode buf).can_dlc = min (buf.getD 5 0 &&& 0xf) 8 ∧
    (mcp2515_read_rxb_decode buf).can_dlc ≤ 8 ∧
    (mcp2515_read_rxb_decode buf).data =
      (if (mcp2515_read_rxb_decode buf).can_id &&& CAN_RTR_FLAG ≠ 0 then []
       else (List.range (min (buf.getD 5 0 &&& 0xf) 8)).map fun i => buf.getD (i + 6) 0) := by
  refine ⟨rfl, ?_, ?_⟩
  · simp [mcp2515_read_rxb_decode, get_can_dlc]
  · simp only [mcp2515_read_rxb_decode, get_can_dlc]

/-- C6: after the clear-error-flags exchange completes, the overrun counter is
incremented exactly once when bit 6 or bit 7 of the EFLG snapshot is set (once
even when both are set, zero times when neither is), and a status read is
issued unconditionally. -/
theorem mcp2515_clear_eflg_complete_overrun (eflg ctr : Nat) :
    (mcp2515_clear_eflg_complete eflg ctr).1 =
      (if eflg.testBit 6 ∨ eflg.testBit 7 then ctr + 1 else ctr) ∧
    (mcp2515_clear_eflg_complete eflg ctr).2 = NextOp.readFlags := by
  refine ⟨?_, rfl⟩
  have hlow : eflg &&& (EFLG_RX0OVR ||| EFLG_RX1OVR) = (eflg % 256) &&& 192 :=
    land_low_byte eflg 192 (by norm_num)
  have hb : ∀ y < 256, (y &&& 192 ≠ 0 ↔ (y.testBit 6 = true ∨ y.testBit 7 = true)) := by
    decide
  have h6 := testBit_low_byte eflg 6 (by norm_num)
  have h7 := testBit_low_byte eflg 7 (by norm_num)
  have hiff := hb (eflg % 256) (Nat.mod_lt _ (by norm_num))
  rw [h6, h7] at hiff
  simp only [mcp2515_clear_eflg_complete, hlow, hiff]

/-- C8: when the fallback timer fires while the scheduler is busy, the skip
counter increments by exactly one and no register exchange is issued; when it
fires while idle, busy is set, the diagnostic marker is set, the skip counter
is reset, and a status read begins. -/
theorem read_flags_timer_cb_spec (busy : Bool) (skip : Nat) (extra : Bool) :
    (read_flags_timer_cb busy skip extra).skip = (if busy then skip + 1 else 0) ∧
    (read_flags_timer_cb busy skip extra).read_flags_issued = !busy ∧
    (read_flags_timer_cb busy skip extra).busy = true ∧
    (read_flags_timer_cb busy skip extra).extra = (if busy then extra else true) := by
  cases busy <;> simp [read_flags_timer_cb]

/-- The result of `mcp2515_read_flags_complete` depends on the EFLG response
byte only through the stored `eflg` field. -/
theorem read_flags_complete_eflg_indep (buf2 buf3 pend : Nat) (extra intr busy : Bool) :
    mcp2515_read_flags_complete buf2 buf3 extra pend intr busy =
      { mcp2515_read_flags_complete buf2 0 extra pend intr busy with
        eflg := buf3 &&& 255 } := by
  unfold mcp2515_read_flags_complete
  dsimp only
  repeat' split
  all_goals rfl

/-- C2, checked exhaustively over all CANINTF bytes, pending maps and flag
states (with the EFLG byte fixed to 0; see `read_flags_complete_eflg_indep`). -/
theorem read_flags_complete_priority_aux :
    ∀ b2 < 256, ∀ p < 8, ∀ e i b : Bool,
      ((mcp2515_read_flags_complete b2 0 e p i b).op =
        (if b2.testBit 0 then NextOp.readRxb0
         else if b2.testBit 1 then NextOp.readRxb1
         else if b2 ≠ 0 then NextOp.clearCanintf
         else if p ≠ 0 then NextOp.loadTxb (spec_lowest_pending_slot p)
         else if i then NextOp.readFlags
         else NextOp.idleArmTimer) ∧
      (mcp2515_read_flags_complete b2 0 e p i b).tx_pending_map =
        (if b2 = 0 ∧ p ≠ 0 then p - 2 ^ spec_lowest_pending_slot p else p) ∧
      (mcp2515_read_flags_complete b2 0 e p i b).interrupt =
        (if b2 = 0 ∧ p = 0 then false else i) ∧
      (mcp2515_read_flags_complete b2 0 e p i b).busy =
        (if b2 = 0 ∧ p = 0 ∧ i = false then false else b)) := by
  decide

/-- C2: for every pair of flag bytes read by a status read, the completion
handler branches in strict priority order: RX0 flag set issues the read of
receive buffer 0; else RX1 flag set issues the read of receive buffer 1;
else any other interrupt-flag bit issues the clear-flags exchange; else if
some transmit slot is pending, the lowest-indexed pending slot is dequeued
(its pending bit cleared) and loaded; else if the deferred-interrupt flag is
set it is cleared and the status read is reissued; else busy is cleared and
the fallback timer is armed. -/
theorem mcp2515_read_flags_complete_priority (buf2 buf3 pend : Nat)
    (extra intr busy : Bool) (hb2 : buf2 < 256) (hp : pend < 8) :
    (mcp2515_read_flags_complete buf2 buf3 extra pend intr busy).op =
      (if buf2.testBit 0 then NextOp.readRxb0
       else if buf2.testBit 1 then NextOp.readRxb1
       else if buf2 ≠ 0 then NextOp.clearCanintf
       else if pend ≠ 0 then NextOp.loadTxb (spec_lowest_pending_slot pend)
       else if intr then NextOp.readFlags
       else NextOp.idleArmTimer) ∧
    (mcp2515_read_flags_complete buf2 buf3 extra pend intr busy).tx_pending_map =
      (if buf2 = 0 ∧ pend ≠ 0 then pend - 2 ^ spec_lowest_pending_slot pend else pend) ∧
    (mcp2515_read_flags_complete buf2 buf3 extra pend intr busy).interrupt =
      (if buf2 = 0 ∧ pend = 0 then false else intr) ∧
    (mcp2515_read_flags_complete buf2 buf3 extra pend intr busy).busy =
      (if buf2 = 0 ∧ pend = 0 ∧ intr = false then false else busy) := by
  rw [read_flags_complete_eflg_indep]
  exact read_flags_complete_priority_aux buf2 hb2 pend hp extra intr busy

/-- The witness for C2: a status read that found CANINTF = 0 with slot 1 and
slot 2 pending dequeues slot 1. -/
theorem mcp2515_read_flags_complete_priority_witness :
    (mcp2515_read_flags_complete 0 0 false 6 false true).op = NextOp.loadTxb 1 ∧
    (mcp2515_read_flags_complete 0 0 false 6 false true).tx_pending_map = 4 := by
  have h := mcp2515_read_flags_complete_priority 0 0 6 false false true
    (by decide) (by decide)
  refine ⟨?_, ?_⟩
  · rw [h.1]; decide
  · rw [h.2.1]; decide

/-- Bound used for C3: completion accounting only clears busy-map bits. -/
theorem tx_complete_accounting_le (canintf m : Nat) :
    mcp2515_tx_complete_accounting canintf m ≤ m := by
  unfold mcp2515_tx_complete_accounting
  repeat' split
  all_goals
    first
      | exact le_refl _
      | exact Nat.and_le_left
      | exact le_trans Nat.and_le_left Nat.and_le_left
      | exact le_trans Nat.and_le_left (le_trans Nat.and_le_left Nat.and_le_left)

/-- For maps over the 3 slot bits, "count of busy slots below 3" is exactly
"below TX_MAP_BUSY". -/
theorem busy_slot_count_lt (m : Nat) (hm : m < 8) :
    (spec_busy_slot_count m < MCP2515_TX_CNT ↔ m < TX_MAP_BUSY) := by
  revert hm
  revert m
  decide

/-- The wake decision of `mcp2515_clear_canintf_complete`, phrased through the
busy-slot count. -/
theorem clear_canintf_wake_iff (stopped : Bool) (M : Nat) (hM : M < 8) :
    ((stopped && decide (M < TX_MAP_BUSY)) = true ↔
      (stopped = true ∧ spec_busy_slot_count M < MCP2515_TX_CNT)) := by
  cases stopped <;> simp [busy_slot_count_lt M hM]

/-- C3 part 1, checked exhaustively: `mcp2515_start_xmit` calls
`netif_stop_queue` exactly when all `MCP2515_TX_CNT` slots are non-Free after
the enqueue. -/
theorem start_xmit_stop_aux :
    ∀ bm < 8, ∀ b s : Bool,
      ((mcp2515_start_xmit bm 0 b s).stop_queue_called = true ↔
        spec_busy_slot_count (mcp2515_start_xmit bm 0 b s).tx_busy_map =
          MCP2515_TX_CNT) := by
  decide

/-- The stop decision and busy map of `mcp2515_start_xmit` do not depend on
the pending map. -/
theorem start_xmit_pending_indep (bm pm : Nat) (b s : Bool) :
    (mcp2515_start_xmit bm pm b s).stop_queue_called =
      (mcp2515_start_xmit bm 0 b s).stop_queue_called ∧
    (mcp2515_start_xmit bm pm b s).tx_busy_map =
      (mcp2515_start_xmit bm 0 b s).tx_busy_map := by
  unfold mcp2515_start_xmit
  repeat' split
  all_goals exact ⟨rfl, rfl⟩

/-- C3: the host transmit queue is signaled stopped iff all 3 transmit slots
are non-Free after the enqueue, and it is woken exactly when, after completion
accounting in a clear-flags cycle, the count of busy slots drops strictly
below 3 while the stopped flag is set. -/
theorem mcp2515_queue_stop_resume (bm pm ci ef bm2 : Nat) (busy stopped stopped2 : Bool)
    (h1 : bm < 8) (h2 : bm2 < 8) :
    ((mcp2515_start_xmit bm pm busy stopped).stop_queue_called = true ↔
      spec_busy_slot_count (mcp2515_start_xmit bm pm busy stopped).tx_busy_map =
        MCP2515_TX_CNT) ∧
    ((mcp2515_clear_canintf_complete ci ef bm2 stopped2).wake_queue_called = true ↔
      (stopped2 = true ∧
        spec_busy_slot_count
          (mcp2515_clear_canintf_complete ci ef bm2 stopped2).tx_busy_map <
          MCP2515_TX_CNT)) := by
  constructor
  · rw [(start_xmit_pending_indep bm pm busy stopped).1,
      (start_xmit_pending_indep bm pm busy stopped).2]
    exact start_xmit_stop_aux bm h1 busy stopped
  · have hM : mcp2515_tx_complete_accounting ci bm2 < 8 :=
      lt_of_le_of_lt (tx_complete_accounting_le ci bm2) h2
    simpa [mcp2515_clear_canintf_complete] using
      clear_canintf_wake_iff stopped2 (mcp2515_tx_complete_accounting ci bm2) hM

/-- The witness for C3: enqueuing into a map with slots 0 and 1 busy fills the
ring and stops the queue; acknowledging slot 0 with the queue stopped wakes it. -/
theorem mcp2515_queue_stop_resume_witness :
    ((mcp2515_start_xmit 3 0 false false).stop_queue_called = true ↔
      spec_busy_slot_count (mcp2515_start_xmit 3 0 false false).tx_busy_map =
        MCP2515_TX_CNT) ∧
    ((mcp2515_clear_canintf_complete 4 0 7 true).wake_queue_called = true ↔
      (true = true ∧
        spec_busy_slot_count (mcp2515_clear_canintf_complete 4 0 7 true).tx_busy_map <
          MCP2515_TX_CNT)) :=
  mcp2515_queue_stop_resume 3 0 4 0 7 false false true (by decide) (by decide)

/-- C7 (the code accepts a frame even with no Free slot): called with all
three slots busy, `mcp2515_start_xmit` does stop the queue, but it still
returns `NETDEV_TX_OK` — it reports acceptance, not rejection — and it stores
the frame at the out-of-range slot index 3. -/
theorem mcp2515_start_xmit_full_accepts :
    (mcp2515_start_xmit 7 0 false false).ret_tx_ok = true ∧
    (mcp2515_start_xmit 7 0 false false).stop_queue_called = true ∧
    (mcp2515_start_xmit 7 0 false false).tx_idx = MCP2515_TX_CNT := by
  decide

/-- C10 (out-of-bounds slot index): called while the scheduler is busy with
all three slots already non-Free, the free-slot scan leaves `tx_idx` at 3, so
`priv->skb[tx_idx]` indexes one past the 3-element `skb` array and the pending
map receives bit 3, outside the slot bits. -/
theorem mcp2515_start_xmit_oob_slot_index :
    (mcp2515_start_xmit 7 0 true false).tx_idx = 3 ∧
    ¬ (mcp2515_start_xmit 7 0 true false).tx_idx < MCP2515_TX_CNT ∧
    (mcp2515_start_xmit 7 0 true false).tx_pending_map = BIT 3 := by
  decide

/- ### Bit-level helper lemmas for the frame codec -/

/-- Bits of a power of two. -/
theorem testBit_pow (n i : Nat) : Nat.testBit (2 ^ n) i = decide (i = n) := by
  rcases eq_or_ne n i with h | h
  · subst h; simp [Nat.testBit_two_pow_self]
  · simp [Nat.testBit_two_pow_of_ne h, Ne.symm h]

/-- Bits of the u8 mask 0xff. -/
theorem testBit_255 (i : Nat) : Nat.testBit 255 i = decide (i < 8) := by
  rw [show (255 : Nat) = 2 ^ 8 - 1 by norm_num, Nat.testBit_two_pow_sub_one]

/-- Bits of the mask 0xe0 used by the identifier packing. -/
theorem testBit_224 (i : Nat) : Nat.testBit 224 i = (decide (5 ≤ i) && decide (i < 8)) := by
  rw [show (224 : Nat) = (2 ^ 3 - 1) <<< 5 by decide, Nat.testBit_shiftLeft,
    Nat.testBit_two_pow_sub_one]
  by_cases h : 5 ≤ i
  · simp [ge_iff_le, h, decide_eq_decide]; omega
  · simp [ge_iff_le, h]

/-- Bits of the mask 0x3. -/
theorem testBit_3 (i : Nat) : Nat.testBit 3 i = decide (i < 2) := by
  rw [show (3 : Nat) = 2 ^ 2 - 1 by norm_num, Nat.testBit_two_pow_sub_one]

/-- Bits of the DLC mask 0xf. -/
theorem testBit_15 (i : Nat) : Nat.testBit 15 i = decide (i < 4) := by
  rw [show (15 : Nat) = 2 ^ 4 - 1 by norm_num, Nat.testBit_two_pow_sub_one]

/-- Bits of the IDE bit 0x08. -/
theorem testBit_8 (i : Nat) : Nat.testBit 8 i = decide (i = 3) := by
  rw [show (8 : Nat) = 2 ^ 3 by norm_num]; exact testBit_pow 3 i

/-- Bits of the RTR bit 0x40. -/
theorem testBit_64 (i : Nat) : Nat.testBit 64 i = decide (i = 6) := by
  rw [show (64 : Nat) = 2 ^ 6 by norm_num]; exact testBit_pow 6 i

/-- Bits of the SRR bit 0x10. -/
theorem testBit_16 (i : Nat) : Nat.testBit 16 i = decide (i = 4) := by
  rw [show (16 : Nat) = 2 ^ 4 by norm_num]; exact testBit_pow 4 i

/-- Bits of CAN_EFF_FLAG. -/
theorem testBit_effFlag (i : Nat) : Nat.testBit 0x80000000 i = decide (i = 31) := by
  rw [show (0x80000000 : Nat) = 2 ^ 31 by norm_num]; exact testBit_pow 31 i

/-- Bits of CAN_RTR_FLAG. -/
theorem testBit_rtrFlag (i : Nat) : Nat.testBit 0x40000000 i = decide (i = 30) := by
  rw [show (0x40000000 : Nat) = 2 ^ 30 by norm_num]; exact testBit_pow 30 i

/-- A masked-and-shifted byte field stays below 2^32 for shifts up to 24. -/
theorem shl_mask_lt (x m k : Nat) (hm : m < 256) (hk : k ≤ 24) :
    (x &&& m) <<< k < 2 ^ 32 := by
  rw [Nat.shiftLeft_eq]
  have h1 : x &&& m ≤ m := Nat.and_le_right
  have h2 : (2 : Nat) ^ k ≤ 2 ^ 24 := Nat.pow_le_pow_right (by norm_num) hk
  calc (x &&& m) * 2 ^ k ≤ 255 * 2 ^ 24 := Nat.mul_le_mul (le_trans h1 (by omega)) h2
    _ < 2 ^ 32 := by norm_num

/-- Masking with a single power of two isolates that bit. -/
theorem land_two_pow (x n : Nat) : x &&& 2 ^ n = if x.testBit n then 2 ^ n else 0 := by
  apply Nat.eq_of_testBit_eq
  intro i
  rw [Nat.testBit_and, testBit_pow]
  rcases eq_or_ne i n with rfl | h
  · cases hx : x.testBit i <;> simp [hx]
  · cases hx : x.testBit n <;> simp [h, hx, testBit_pow, Nat.testBit_two_pow_of_ne (Ne.symm h)]

/-- The EFF-flag test of the encoder is the test of identifier bit 31. -/
theorem land_effFlag_ne (x : Nat) : (x &&& 0x80000000 ≠ 0) ↔ x.testBit 31 = true := by
  rw [show (0x80000000 : Nat) = 2 ^ 31 by norm_num, land_two_pow]
  cases hx : x.testBit 31 <;> simp

/-- The RTR-flag test of the encoder is the test of identifier bit 30. -/
theorem land_rtrFlag_ne (x : Nat) : (x &&& 0x40000000 ≠ 0) ↔ x.testBit 30 = true := by
  rw [show (0x40000000 : Nat) = 2 ^ 30 by norm_num, land_two_pow]
  cases hx : x.testBit 30 <;> simp

/-- Value of the IDE bit constant. -/
theorem RXBSIDL_IDE_val : RXBSIDL_IDE = 8 := rfl

/-- Value of the SRR bit constant. -/
theorem RXBSIDL_SRR_val : RXBSIDL_SRR = 16 := rfl

/-- Value of the DLC RTR bit constant. -/
theorem RXBDLC_RTR_val : RXBDLC_RTR = 64 := rfl

/-- The extended-frame SIDL byte built by the encoder always has the IDE bit
set. -/
theorem eff_ide_bit (cid : Nat) :
    (((((cid >>> 13) &&& 224) ||| 8 ||| ((cid >>> 16) &&& 3)) &&& 255) &&& 8) ≠ 0 := by
  have hb : (((((cid >>> 13) &&& 224) ||| 8 ||| ((cid >>> 16) &&& 3)) &&& 255) &&& 8).testBit 3
      = true := by
    simp only [Nat.testBit_and, Nat.testBit_or, testBit_224, testBit_8, testBit_255,
      Nat.testBit_shiftRight]
    norm_num
  intro h0
  rw [h0] at hb
  simp at hb

/-- The standard-frame SIDL byte built by the encoder has the IDE bit clear. -/
theorem std_ide_bit (cid : Nat) : (((cid <<< 5) &&& 255) &&& 8) = 0 := by
  apply Nat.eq_of_testBit_eq
  intro i
  rcases eq_or_ne i 3 with rfl | h
  · simp only [Nat.testBit_and, Nat.testBit_shiftLeft, testBit_255, testBit_8, Nat.zero_testBit]
    norm_num
  · simp [Nat.testBit_and, testBit_8, h]

/-- The standard-frame SIDL byte built by the encoder has the SRR bit clear. -/
theorem std_srr_bit (cid : Nat) : (((cid <<< 5) &&& 255) &&& 16) = 0 := by
  apply Nat.eq_of_testBit_eq
  intro i
  rcases eq_or_ne i 4 with rfl | h
  · simp only [Nat.testBit_and, Nat.testBit_shiftLeft, testBit_255, testBit_16, Nat.zero_testBit]
    norm_num
  · simp [Nat.testBit_and, testBit_16, h]

/-- Facts about the DLC byte written by the encoder, for lengths up to 8: the
RTR bit is present exactly for remote frames, and the decoder's low-4-bit
clamp recovers the length. -/
theorem dlc_byte_facts : ∀ d ≤ 8,
    ((d &&& 255) &&& 64 = 0) ∧
    ((((d ||| 64) &&& 255) &&& 64) ≠ 0) ∧
    (min ((d &&& 255) &&& 15) 8 = d) ∧
    (min (((d ||| 64) &&& 255) &&& 15) 8 = d) := by
  decide

/-- Reading back a list through `getD` over its index range is the identity. -/
theorem range_map_getD (l : List Nat) :
    (List.range l.length).map (fun i => l.getD i 0) = l := by
  induction l with
  | nil => rfl
  | cons a t ih =>
    rw [List.length_cons, List.range_succ_eq_map, List.map_cons, List.map_map]
    have hfun : ((fun i => (a :: t).getD i 0) ∘ Nat.succ) = (fun i => t.getD i 0) := rfl
    rw [hfun, ih]
    rfl

/-- `range_map_getD` restated through `getElem?`, the normal form of list
indexing. -/
theorem range_map_getElem (l : List Nat) (n : Nat) (h : l.length = n) :
    (List.range n).map (fun i => l[i]?.getD 0) = l := by
  subst h
  rw [show (fun i => l[i]?.getD 0) = (fun i => l.getD i 0) from
    funext fun i => (List.getD_eq_getElem?_getD l i 0).symm]
  exact range_map_getD l

/-- Bits of a byte extracted from position `s` and placed back at position `s`. -/
theorem field_bits_same (cid s j : Nat) :
    (((cid >>> s) &&& 255) <<< s).testBit j =
      (decide (s ≤ j ∧ j < s + 8) && cid.testBit j) := by
  rw [Nat.testBit_shiftLeft, Nat.testBit_and, Nat.testBit_shiftRight, testBit_255]
  by_cases h : s ≤ j
  · by_cases h8 : j - s < 8
    · simp [ge_iff_le, h, h8, show s + (j - s) = j by omega, show s ≤ j ∧ j < s + 8 by omega]
    · simp [ge_iff_le, h, h8, show ¬(j < s + 8) by omega]
  · simp [ge_iff_le, h, show ¬(s ≤ j) by omega]

/-- Bits of the unshifted low byte `cid &&& 255`. -/
theorem low_byte_bits (cid j : Nat) :
    (cid &&& 255).testBit j = (decide (j < 8) && cid.testBit j) := by
  rw [Nat.testBit_and, testBit_255, Bool.and_comm]

/-- Bits 18..20 of the identifier, as carried by the high part of the SIDL
byte built by the encoder. -/
theorem eff_sidl_hi_bits (cid j : Nat) :
    ((((((cid >>> 13) &&& 224) ||| 8 ||| ((cid >>> 16) &&& 3)) &&& 255) &&& 224) <<< 13).testBit j
      = (decide (18 ≤ j ∧ j < 21) && cid.testBit j) := by
  rw [Nat.testBit_shiftLeft]
  by_cases h13 : 13 ≤ j
  · simp only [ge_iff_le, h13, decide_True, Bool.true_and, Nat.testBit_and, Nat.testBit_or,
      Nat.testBit_shiftRight, testBit_224, testBit_255, testBit_8, testBit_3]
    by_cases h : 18 ≤ j ∧ j < 21
    · simp [show 5 ≤ j - 13 by omega, show j - 13 < 8 by omega, show ¬(j - 13 = 3) by omega,
        show ¬(j - 13 < 2) by omega, show 13 + (j - 13) = j by omega, h]
    · rcases (by omega : j - 13 < 5 ∨ 8 ≤ j - 13) with hk | hk
      · simp [show ¬(5 ≤ j - 13) by omega, h]
      · simp [show ¬(j - 13 < 8) by omega, h]
  · simp [ge_iff_le, h13, show ¬(18 ≤ j ∧ j < 21) by omega]

/-- Bits 16..17 of the identifier, as carried by the low part of the SIDL
byte built by the encoder. -/
theorem eff_sidl_lo_bits (cid j : Nat) :
    ((((((cid >>> 13) &&& 224) ||| 8 ||| ((cid >>> 16) &&& 3)) &&& 255) &&& 3) <<< 16).testBit j
      = (decide (16 ≤ j ∧ j < 18) && cid.testBit j) := by
  rw [Nat.testBit_shiftLeft]
  by_cases h16 : 16 ≤ j
  · simp only [ge_iff_le, h16, decide_True, Bool.true_and, Nat.testBit_and, Nat.testBit_or,
      Nat.testBit_shiftRight, testBit_224, testBit_255, testBit_8, testBit_3]
    by_cases h : 16 ≤ j ∧ j < 18
    · simp [show ¬(5 ≤ j - 16) by omega, show j - 16 < 8 by omega, show ¬(j - 16 = 3) by omega,
        show j - 16 < 2 by omega, show 16 + (j - 16) = j by omega, h]
    · simp [show ¬(j - 16 < 2) by omega, show ¬(j < 18) by omega]
  · simp [ge_iff_le, h16, show ¬(16 ≤ j ∧ j < 18) by omega]

/-- Reassembling the four extended-identifier bytes produced by the encoder
recovers identifier bits 0..28 (bit 29 is assumed clear, as it is for every
valid `can_id`), with the EFF flag bit set. -/
theorem eff_id_reassembly (cid : Nat) (h29 : cid.testBit 29 = false) :
    (((cid >>> 21) &&& 255) <<< 21 |||
      (((((cid >>> 13) &&& 224) ||| 8 ||| ((cid >>> 16) &&& 3)) &&& 255) &&& 224) <<< 13 |||
      (((((cid >>> 13) &&& 224) ||| 8 ||| ((cid >>> 16) &&& 3)) &&& 255) &&& 3) <<< 16 |||
      ((cid >>> 8) &&& 255) <<< 8 ||| (cid &&& 255) ||| 0x80000000) =
    cid % 2 ^ 30 ||| 2 ^ 31 := by
  apply Nat.eq_of_testBit_eq
  intro j
  simp only [Nat.testBit_or]
  rw [field_bits_same cid 21 j, eff_sidl_hi_bits cid j, eff_sidl_lo_bits cid j,
    field_bits_same cid 8 j, low_byte_bits cid j, testBit_effFlag j,
    Nat.testBit_mod_two_pow, testBit_pow]
  cases hb : cid.testBit j
  · simp
  · have hj : j ≠ 29 := by
      intro h
      rw [h, h29] at hb
      cases hb
    simp only [hb, Bool.and_true]
    simp only [← Bool.decide_or, ← Bool.decide_and]
    rw [decide_eq_decide]
    omega

/-- Bits 0..2 of the identifier, as carried by the standard-frame SIDL byte
built by the encoder. -/
theorem std_lo_bits (cid j : Nat) :
    (((cid <<< 5) &&& 255) >>> 5).testBit j = (decide (j < 3) && cid.testBit j) := by
  rw [Nat.testBit_shiftRight, Nat.testBit_and, testBit_255, Nat.testBit_shiftLeft]
  by_cases h : j < 3
  · simp [ge_iff_le, show 5 ≤ 5 + j by omega, show 5 + j - 5 = j by omega,
      show 5 + j < 8 by omega, h]
  · simp [show ¬(5 + j < 8) by omega, h]

/-- Reassembling the two standard-identifier bytes produced by the encoder
recovers identifier bits 0..10; bits 11..28 and bit 29 of a valid standard
`can_id` are clear, so this equals the identifier without its flag bits. -/
theorem std_id_reassembly (cid : Nat) (h29 : cid.testBit 29 = false)
    (hmid : ∀ k, 11 ≤ k → k < 29 → cid.testBit k = false) :
    (((cid >>> 3) &&& 255) <<< 3 ||| ((cid <<< 5) &&& 255) >>> 5) = cid % 2 ^ 30 := by
  apply Nat.eq_of_testBit_eq
  intro j
  simp only [Nat.testBit_or]
  rw [field_bits_same cid 3 j, std_lo_bits cid j, Nat.testBit_mod_two_pow]
  cases hb : cid.testBit j
  · simp
  · have h1 : ¬(11 ≤ j ∧ j < 29) := by
      intro hcon
      rw [hmid j hcon.1 hcon.2] at hb
      cases hb
    have h2 : j ≠ 29 := by
      intro h
      rw [h, h29] at hb
      cases hb
    simp only [hb, Bool.and_true]
    simp only [← Bool.decide_or, ← Bool.decide_and]
    rw [decide_eq_decide]
    omega

/-- Attaching the EFF flag to the 29 low identifier bits of a valid extended
data frame rebuilds its `can_id` exactly. -/
theorem eff_or_flags_nonrtr (cid : Nat) (h32 : cid < 2 ^ 32) (h30 : cid.testBit 30 = false)
    (h31 : cid.testBit 31 = true) : cid % 1073741824 ||| 2147483648 = cid := by
  rw [show (1073741824 : Nat) = 2 ^ 30 by norm_num,
    show (2147483648 : Nat) = 2 ^ 31 by norm_num]
  apply Nat.eq_of_testBit_eq
  intro j
  rw [Nat.testBit_or, Nat.testBit_mod_two_pow, testBit_pow]
  by_cases h : j < 30
  · simp [h, show j ≠ 31 by omega]
  · rcases (by omega : j = 30 ∨ j = 31 ∨ 32 ≤ j) with rfl | rfl | hj
    · simp [h30]
    · simp [h31]
    · have hc : cid.testBit j = false :=
        Nat.testBit_lt_two_pow (lt_of_lt_of_le h32 (Nat.pow_le_pow_right (by norm_num) hj))
      simp [hc, h, show j ≠ 31 by omega]

/-- Attaching the EFF and RTR flags to the 29 low identifier bits of a valid
extended remote frame rebuilds its `can_id` exactly. -/
theorem eff_or_flags_rtr (cid : Nat) (h32 : cid < 2 ^ 32) (h30 : cid.testBit 30 = true)
    (h31 : cid.testBit 31 = true) : (cid % 1073741824 ||| 2147483648) ||| 1073741824 = cid := by
  rw [show (1073741824 : Nat) = 2 ^ 30 by norm_num,
    show (2147483648 : Nat) = 2 ^ 31 by norm_num]
  apply Nat.eq_of_testBit_eq
  intro j
  rw [Nat.testBit_or, Nat.testBit_or, Nat.testBit_mod_two_pow, testBit_pow, testBit_pow]
  by_cases h : j < 30
  · simp [h, show j ≠ 31 by omega, show j ≠ 30 by omega]
  · rcases (by omega : j = 30 ∨ j = 31 ∨ 32 ≤ j) with rfl | rfl | hj
    · simp [h30]
    · simp [h31]
    · have hc : cid.testBit j = false :=
        Nat.testBit_lt_two_pow (lt_of_lt_of_le h32 (Nat.pow_le_pow_right (by norm_num) hj))
      simp [hc, h, show j ≠ 31 by omega, show j ≠ 30 by omega]

/-- A `can_id` with bits 30 and 31 clear is untouched by reduction modulo
2^30. -/
theorem mod_two_pow_30_self (cid : Nat) (h32 : cid < 2 ^ 32) (h30 : cid.testBit 30 = false)
    (h31 : cid.testBit 31 = false) : cid % 1073741824 = cid := by
  rw [show (1073741824 : Nat) = 2 ^ 30 by norm_num]
  apply Nat.eq_of_testBit_eq
  intro j
  rw [Nat.testBit_mod_two_pow]
  by_cases h : j < 30
  · simp [h]
  · rcases (by omega : j = 30 ∨ j = 31 ∨ 32 ≤ j) with rfl | rfl | hj
    · simp [h30]
    · simp [h31]
    · have hc : cid.testBit j = false :=
        Nat.testBit_lt_two_pow (lt_of_lt_of_le h32 (Nat.pow_le_pow_right (by norm_num) hj))
      simp [hc, h]

/-- The low 30 bits of any value carry no RTR flag bit. -/
theorem mod_no_rtr (cid : Nat) : (cid % 1073741824) &&& 1073741824 = 0 := by
  rw [show (1073741824 : Nat) = 2 ^ 30 by norm_num, land_two_pow,
    Nat.testBit_mod_two_pow]
  simp

/-- The identifier rebuilt by the decoder for an extended data frame carries
no RTR flag bit. -/
theorem rebuilt_eff_no_rtr (cid : Nat) :
    (cid % 1073741824 ||| 2147483648) &&& 1073741824 = 0 := by
  rw [show (1073741824 : Nat) = 2 ^ 30 by norm_num,
    show (2147483648 : Nat) = 2 ^ 31 by norm_num, land_two_pow,
    Nat.testBit_or, Nat.testBit_mod_two_pow, testBit_pow]
  simp

/-- The identifier rebuilt by the decoder for an extended remote frame has the
RTR flag bit set. -/
theorem rebuilt_eff_rtr_set (cid : Nat) :
    ((cid % 1073741824 ||| 2147483648) ||| 1073741824) &&& 1073741824 ≠ 0 := by
  rw [show (1073741824 : Nat) = 2 ^ 30 by norm_num,
    show (2147483648 : Nat) = 2 ^ 31 by norm_num, land_two_pow,
    Nat.testBit_or, Nat.testBit_or, Nat.testBit_mod_two_pow, testBit_pow, testBit_pow]
  simp

/-- C5 as the code realises it: feeding the transmit-buffer bytes of a valid
frame to the receive-buffer decoder (after the echoed instruction byte)
recovers identifier, length and payload for every data frame; for an extended
remote frame it recovers identifier, remote flag and length but no payload
bytes (the handler copies none); for a standard remote frame the decoded
remote-request flag is clear, because the encoder places RTR in the DLC byte
while the decoder reads it from the SRR bit for standard frames. -/
theorem mcp2515_txbuf_rxb_roundtrip (f : CanFrame) (hv : validFrame f) :
    (f.can_id.testBit 30 = false →
      mcp2515_read_rxb_decode (0 :: mcp2515_set_txbuf f) = f) ∧
    (f.can_id.testBit 30 = true → f.can_id.testBit 31 = true →
      mcp2515_read_rxb_decode (0 :: mcp2515_set_txbuf f) = { f with data := [] }) ∧
    (f.can_id.testBit 30 = true → f.can_id.testBit 31 = false →
      mcp2515_read_rxb_decode (0 :: mcp2515_set_txbuf f) =
        { f with can_id := f.can_id % 2 ^ 30 }) := by
  obtain ⟨cid, dlc, data⟩ := f
  simp only [validFrame] at hv
  obtain ⟨h32, h29, hstd, hdlc, hlen, hbytes⟩ := hv
  have hb5 := dlc_byte_facts dlc hdlc
  have htake : data.take dlc = data := by
    rw [← hlen]
    exact List.take_length data
  refine ⟨?_, ?_, ?_⟩
  · intro h30
    have h30f : cid.testBit 30 = false := h30
    have hRtr0 : cid &&& 0x40000000 = 0 := by
      by_contra hne
      have hbit := (land_rtrFlag_ne cid).mp hne
      rw [h30f] at hbit
      cases hbit
    by_cases h31 : cid.testBit 31 = true
    · have hEff : cid &&& 0x80000000 ≠ 0 := (land_effFlag_ne cid).mpr h31
      simp [mcp2515_read_rxb_decode, mcp2515_set_txbuf, get_can_dlc, hEff, hRtr0,
        RXBSIDL_IDE_val, RXBDLC_RTR_val, CAN_EFF_FLAG, CAN_RTR_FLAG,
        eff_ide_bit cid, hb5.1, hb5.2.2.1, htake, rebuilt_eff_no_rtr cid,
        eff_id_reassembly cid h29, eff_or_flags_nonrtr cid h32 h30f h31,
        range_map_getElem data dlc hlen]
    · have h31f : cid.testBit 31 = false := by
        cases hc : cid.testBit 31
        · rfl
        · exact absurd hc h31
      have hEff0 : cid &&& 0x80000000 = 0 := by
        by_contra hne
        have hbit := (land_effFlag_ne cid).mp hne
        rw [h31f] at hbit
        cases hbit
      have hmid : ∀ k, 11 ≤ k → k < 29 → cid.testBit k = false := by
        intro k hk1 hk2
        have hlow := hstd h31f
        have hk : (cid % 2 ^ 29).testBit k = false :=
          Nat.testBit_lt_two_pow (lt_of_lt_of_le hlow (Nat.pow_le_pow_right (by norm_num) hk1))
        rw [Nat.testBit_mod_two_pow] at hk
        simpa [hk2] using hk
      simp [mcp2515_read_rxb_decode, mcp2515_set_txbuf, get_can_dlc, hEff0, hRtr0,
        RXBSIDL_IDE_val, RXBSIDL_SRR_val, CAN_EFF_FLAG, CAN_RTR_FLAG,
        std_ide_bit cid, std_srr_bit cid, hb5.1, hb5.2.2.1, htake, mod_no_rtr cid,
        std_id_reassembly cid h29 hmid, mod_two_pow_30_self cid h32 h30f h31f,
        range_map_getElem data dlc hlen]
  · intro h30 h31
    have hEff : cid &&& 0x80000000 ≠ 0 := (land_effFlag_ne cid).mpr h31
    have hRtrNe : cid &&& 0x40000000 ≠ 0 := (land_rtrFlag_ne cid).mpr h30
    simp [mcp2515_read_rxb_decode, mcp2515_set_txbuf, get_can_dlc, hEff, hRtrNe,
      RXBSIDL_IDE_val, RXBDLC_RTR_val, CAN_EFF_FLAG, CAN_RTR_FLAG,
      eff_ide_bit cid, hb5.2.1, hb5.2.2.2, htake, rebuilt_eff_rtr_set cid,
      eff_id_reassembly cid h29, eff_or_flags_rtr cid h32 h30 h31]
  · intro h30 h31f
    have hEff0 : cid &&& 0x80000000 = 0 := by
      by_contra hne
      have hbit := (land_effFlag_ne cid).mp hne
      rw [h31f] at hbit
      cases hbit
    have hRtrNe : cid &&& 0x40000000 ≠ 0 := (land_rtrFlag_ne cid).mpr h30
    have hmid : ∀ k, 11 ≤ k → k < 29 → cid.testBit k = false := by
      intro k hk1 hk2
      have hlow := hstd h31f
      have hk : (cid % 2 ^ 29).testBit k = false :=
        Nat.testBit_lt_two_pow (lt_of_lt_of_le hlow (Nat.pow_le_pow_right (by norm_num) hk1))
      rw [Nat.testBit_mod_two_pow] at hk
      simpa [hk2] using hk
    simp [mcp2515_read_rxb_decode, mcp2515_set_txbuf, get_can_dlc, hEff0, hRtrNe,
      RXBSIDL_IDE_val, RXBSIDL_SRR_val, CAN_EFF_FLAG, CAN_RTR_FLAG,
      std_ide_bit cid, std_srr_bit cid, hb5.2.1, hb5.2.2.2, htake, mod_no_rtr cid,
      std_id_reassembly cid h29 hmid, range_map_getElem data dlc hlen]

/-- The witness for C5: a standard data frame survives the encode/decode
round trip unchanged. -/
theorem mcp2515_txbuf_rxb_roundtrip_witness :
    validFrame ⟨5, 2, [17, 34]⟩ ∧
    mcp2515_read_rxb_decode (0 :: mcp2515_set_txbuf ⟨5, 2, [17, 34]⟩) =
      (⟨5, 2, [17, 34]⟩ : CanFrame) :=
  ⟨by decide, (mcp2515_txbuf_rxb_roundtrip ⟨5, 2, [17, 34]⟩ (by decide)).1 (by decide)⟩

/-- The counterexample to C5 as frozen: for the valid standard remote frame
with identifier 5 (`can_id = CAN_RTR_FLAG ||| 5`), length 1, payload 0xAB,
the decoder applied to the encoder's bytes returns the remote-request flag
cleared, so the flag is not recovered exactly. -/
theorem mcp2515_txbuf_rxb_rtr_mismatch :
    validFrame ⟨1073741829, 1, [171]⟩ ∧
    (⟨1073741829, 1, [171]⟩ : CanFrame).can_id &&& CAN_RTR_FLAG ≠ 0 ∧
    (mcp2515_read_rxb_decode (0 :: mcp2515_set_txbuf ⟨1073741829, 1, [171]⟩)).can_id &&&
      CAN_RTR_FLAG = 0 := by
  decide

/- ### The single-in-flight invariant (C1) and interrupt coalescing (C4) -/

/-- `mcp2515_read_flags_complete` keeps `busy` exactly unless it takes the
idle branch, where it clears it. -/
theorem rfc_busy_op (b2 b3 : Nat) (e : Bool) (p : Nat) (i b : Bool) :
    ((mcp2515_read_flags_complete b2 b3 e p i b).op ≠ NextOp.idleArmTimer →
      (mcp2515_read_flags_complete b2 b3 e p i b).busy = b) ∧
    ((mcp2515_read_flags_complete b2 b3 e p i b).op = NextOp.idleArmTimer →
      (mcp2515_read_flags_complete b2 b3 e p i b).busy = false) := by
  simp only [mcp2515_read_flags_complete]
  split_ifs <;> simp_all

/-- With the deferred-interrupt flag clear, `mcp2515_read_flags_complete`
never reissues a status read, and leaves the flag clear. -/
theorem rfc_i_false (b2 b3 : Nat) (e : Bool) (p : Nat) (b : Bool) :
    (mcp2515_read_flags_complete b2 b3 e p false b).op ≠ NextOp.readFlags ∧
    (mcp2515_read_flags_complete b2 b3 e p false b).interrupt = false := by
  simp only [mcp2515_read_flags_complete]
  split_ifs <;> simp_all

/-- With the deferred-interrupt flag set, `mcp2515_read_flags_complete`
either reissues the status read and consumes the flag, or leaves the flag
set. -/
theorem rfc_i_true (b2 b3 : Nat) (e : Bool) (p : Nat) (b : Bool) :
    ((mcp2515_read_flags_complete b2 b3 e p true b).op = NextOp.readFlags →
      (mcp2515_read_flags_complete b2 b3 e p true b).interrupt = false) ∧
    ((mcp2515_read_flags_complete b2 b3 e p true b).op ≠ NextOp.readFlags →
      (mcp2515_read_flags_complete b2 b3 e p true b).interrupt = true) := by
  simp only [mcp2515_read_flags_complete]
  split_ifs <;> simp_all

/-- One completion callback, entered with no other exchange in flight and the
scheduler busy, leaves at most one follow-up exchange in flight, and reaches
the empty-in-flight state whenever it drops `busy`. -/
theorem stepComplete_inv (s : Sys) (x : Xfer) (b2 b3 : Nat)
    (h0 : s.inflight = []) (hb : s.busy = true) :
    (stepComplete s x b2 b3).inflight.length ≤ 1 ∧
    ((stepComplete s x b2 b3).busy = false → (stepComplete s x b2 b3).inflight = []) := by
  have hbusy := rfc_busy_op b2 b3 s.extra s.tx_pending_map s.interrupt s.busy
  cases x <;>
    simp only [stepComplete, mcp2515_transmit_or_read_flags] <;>
    (repeat' split) <;>
    simp_all

/-- `mcp2515_start_xmit` always leaves the scheduler busy, and submits the
load exchange exactly when it found the scheduler idle. -/
theorem start_xmit_busy_issue (bm pm : Nat) (b st : Bool) :
    (mcp2515_start_xmit bm pm b st).busy = true ∧
    (mcp2515_start_xmit bm pm b st).load_txb_issued = !b := by
  cases b <;> simp [mcp2515_start_xmit]

/-- Every enabled step preserves the single-in-flight invariant. -/
theorem step_preserves_inv (s s2 : Sys) (e : Ev) (h : mcp2515_step s e = some s2)
    (h1 : s.inflight.length ≤ 1) (h2 : s.busy = false → s.inflight = []) :
    s2.inflight.length ≤ 1 ∧ (s2.busy = false → s2.inflight = []) := by
  cases e
  case irq =>
    unfold mcp2515_step at h
    cases hb : s.busy <;> rw [hb] at h <;> cases h <;> simp_all
  case timer =>
    unfold mcp2515_step at h
    cases hb : s.busy <;> rw [hb] at h <;> cases h <;> simp_all
  case xmit =>
    unfold mcp2515_step at h
    cases h
    have hx := start_xmit_busy_issue s.tx_busy_map s.tx_pending_map s.busy s.netif_queue_stopped
    cases hb : s.busy
    · rw [h2 hb]
      simp_all
    · simp_all
  case complete b2 b3 =>
    unfold mcp2515_step at h
    cases hfl : s.inflight with
    | nil => rw [hfl] at h; cases h
    | cons x rest =>
      rw [hfl] at h
      cases h
      have hrest : rest = [] := by
        rw [hfl] at h1
        cases rest
        · rfl
        · simp at h1
      have hbusy : s.busy = true := by
        cases hb : s.busy
        · rw [h2 hb] at hfl; cases hfl
        · rfl
      subst hrest
      exact stepComplete_inv { s with inflight := [] } x b2 b3 rfl hbusy

/-- Running any event sequence from a state satisfying the single-in-flight
invariant preserves it. -/
theorem run_preserves_inv (evs : List Ev) : ∀ s0 s, mcp2515_run s0 evs = some s →
    s0.inflight.length ≤ 1 → (s0.busy = false → s0.inflight = []) →
    s.inflight.length ≤ 1 ∧ (s.busy = false → s.inflight = []) := by
  induction evs with
  | nil =>
    intro s0 s h h1 h2
    cases h
    exact ⟨h1, h2⟩
  | cons e evs ih =>
    intro s0 s h h1 h2
    unfold mcp2515_run at h
    cases hstep : mcp2515_step s0 e with
    | none => rw [hstep] at h; cases h
    | some s1 =>
      rw [hstep] at h
      have hp := step_preserves_inv s0 s1 e hstep h1 h2
      exact ih s1 s h hp.1 hp.2

/-- C1: in every run of the session from the idle initial state — under any
interleaving of interrupt softirq, fallback timer, host transmit and
completion events, with arbitrary response payloads — at most one
asynchronous register exchange is outstanding at any instant, and whenever
the scheduler is not busy no exchange is outstanding: each wake source issues
a new exchange only after winning the busy-flag transition, and each
completion handler either issues exactly one follow-up exchange or clears
busy with nothing in flight. -/
theorem mcp2515_single_inflight (evs : List Ev) (s : Sys)
    (h : mcp2515_run initSys evs = some s) :
    s.inflight.length ≤ 1 ∧ (s.busy = false → s.inflight = []) :=
  run_preserves_inv evs initSys s h (by decide) (by decide)

/-- The witness for C1: after one interrupt wake from idle, exactly the
status read is outstanding. -/
theorem mcp2515_single_inflight_witness :
    ({ initSys with busy := true, inflight := [Xfer.readFlags] } : Sys).inflight.length ≤ 1 ∧
    (({ initSys with busy := true, inflight := [Xfer.readFlags] } : Sys).busy = false →
      ({ initSys with busy := true, inflight := [Xfer.readFlags] } : Sys).inflight = []) :=
  mcp2515_single_inflight [Ev.irq] _ (by decide)

/-- One completion callback raises the deferred-interrupt ghost accounting
`extraReads + (pending deferred flag) ≤ irqWhileBusy` from premise to
conclusion: the extra status read is issued only by consuming a set deferred
flag. -/
theorem stepComplete_c4 (s : Sys) (x : Xfer) (b2 b3 : Nat)
    (hc : s.extraReads + (if s.interrupt then 1 else 0) ≤ s.irqWhileBusy) :
    (stepComplete s x b2 b3).extraReads +
      (if (stepComplete s x b2 b3).interrupt then 1 else 0) ≤
      (stepComplete s x b2 b3).irqWhileBusy := by
  cases x
  case readFlags =>
    cases hi : s.interrupt
    · have hf := rfc_i_false b2 b3 s.extra s.tx_pending_map s.busy
      simp only [stepComplete]
      repeat' split
      all_goals simp_all
    · have ht := rfc_i_true b2 b3 s.extra s.tx_pending_map s.busy
      simp only [stepComplete]
      repeat' split
      all_goals simp_all
  all_goals
    simp only [stepComplete, mcp2515_transmit_or_read_flags]
    repeat' split
    all_goals simp_all

/-- Every enabled step preserves the deferred-interrupt accounting. -/
theorem step_c4 (s s2 : Sys) (e : Ev) (h : mcp2515_step s e = some s2)
    (hc : s.extraReads + (if s.interrupt then 1 else 0) ≤ s.irqWhileBusy) :
    s2.extraReads + (if s2.interrupt then 1 else 0) ≤ s2.irqWhileBusy := by
  cases e
  case irq =>
    unfold mcp2515_step at h
    cases hb : s.busy <;> rw [hb] at h <;> cases h <;>
      cases hi : s.interrupt <;> simp_all <;> omega
  case timer =>
    unfold mcp2515_step at h
    cases hb : s.busy <;> rw [hb] at h <;> cases h <;> simp_all
  case xmit =>
    unfold mcp2515_step at h
    cases h
    simp_all
  case complete b2 b3 =>
    unfold mcp2515_step at h
    cases hfl : s.inflight with
    | nil => rw [hfl] at h; cases h
    | cons x rest =>
      rw [hfl] at h
      cases h
      exact stepComplete_c4 { s with inflight := rest } x b2 b3 hc

/-- Running any event sequence preserves the deferred-interrupt accounting. -/
theorem run_c4 (evs : List Ev) : ∀ s0 s, mcp2515_run s0 evs = some s →
    s0.extraReads + (if s0.interrupt then 1 else 0) ≤ s0.irqWhileBusy →
    s.extraReads + (if s.interrupt then 1 else 0) ≤ s.irqWhileBusy := by
  induction evs with
  | nil =>
    intro s0 s h hc
    cases h
    exact hc
  | cons e evs ih =>
    intro s0 s h hc
    unfold mcp2515_run at h
    cases hstep : mcp2515_step s0 e with
    | none => rw [hstep] at h; cases h
    | some s1 =>
      rw [hstep] at h
      exact ih s1 s h (step_c4 s0 s1 e hstep hc)

/-- C4 as amended: interrupts arriving while busy are coalesced through the
single deferred-interrupt flag, so in every run the number of extra
status-read cycles issued by the deferred-interrupt branch never exceeds the
number of interrupt notifications that arrived while the scheduler was busy
(at most one extra cycle per such notification — but not, as frozen, exactly
one per busy period). -/
theorem mcp2515_deferred_irq_coalescing (evs : List Ev) (s : Sys)
    (h : mcp2515_run initSys evs = some s) :
    s.extraReads ≤ s.irqWhileBusy := by
  have hr := run_c4 evs initSys s h (by decide)
  split at hr <;> omega

/-- The witness for C4: after one interrupt wake from idle, no extra read and
no coalesced interrupt. -/
theorem mcp2515_deferred_irq_coalescing_witness :
    ({ initSys with busy := true, inflight := [Xfer.readFlags] } : Sys).extraReads ≤
      ({ initSys with busy := true, inflight := [Xfer.readFlags] } : Sys).irqWhileBusy :=
  mcp2515_deferred_irq_coalescing [Ev.irq] _ (by decide)

/-- The counterexample to C4 as frozen: a single busy period (opened by the
fallback timer; `busy` stays set after every proper prefix and is clear only
at the end) during which two interrupts arrive while busy, each arriving
after the previous deferred flag was consumed — the deferred-interrupt flag
is set twice and two extra status-read cycles run before the scheduler
returns to idle, not exactly one. -/
theorem mcp2515_two_extra_reads_one_busy_period :
    (mcp2515_run initSys [Ev.timer]).map Sys.busy = some true ∧
    (mcp2515_run initSys [Ev.timer, Ev.irq]).map Sys.busy = some true ∧
    (mcp2515_run initSys [Ev.timer, Ev.irq, Ev.complete 0 0]).map Sys.busy = some true ∧
    (mcp2515_run initSys [Ev.timer, Ev.irq, Ev.complete 0 0, Ev.irq]).map Sys.busy =
      some true ∧
    (mcp2515_run initSys
        [Ev.timer, Ev.irq, Ev.complete 0 0, Ev.irq, Ev.complete 0 0]).map Sys.busy =
      some true ∧
    (mcp2515_run initSys
        [Ev.timer, Ev.irq, Ev.complete 0 0, Ev.irq, Ev.complete 0 0, Ev.complete 0 0]).map
        (fun s => (s.busy, s.extraReads, s.irqWhileBusy)) =
      some (false, 2, 2) := by
  decide
